import Mathlib

/-!
Shallow embedding of `src/mcrouter/TkoTracker.cpp` (the per-destination TKO
state machine of mcrouter) and proofs about it.

The C++ object is a concurrent state machine; here we verify its *sequential*
semantics: each public operation is modelled as a pure function on an explicit
state, where every compare-and-swap loop runs exactly one successful iteration
(sequentially the CAS of a just-loaded value always succeeds).

Machine integers (`uintptr_t`, `size_t`, both 64-bit words) are modelled as
`Nat` with explicit `% 2 ^ 64` wherever the C++ arithmetic can wrap:
the counter increments/decrements (`fetch_sub(1)` at zero wraps), and the
expression `tkoThreshold_ - 1` (which underflows when the threshold is 0).

A destination (`ProxyDestination*`) is modelled by its address, a `Nat`
token; `reinterpret_cast<uintptr_t>(pdstn)` is the identity on the token.

The global counters (`trackerMap_.globalTkos_.softTkos/hardTkos`, shared
through the owning `TkoTrackerMap`) are embedded as fields of the state,
since we study one tracker with its map.  The `assert(oldSoftTkos != 0)` in
`decrementSoftTkoCount` is recorded by the ghost flag `softDecAssertFailed`:
it becomes `true` exactly when the assertion would fire (pre-decrement value
zero).  The bare `--hardTkos` in `recordSuccess` has no assertion in the
source and therefore leaves the flag alone.
-/

namespace Mcrouter

/-- `2 ^ 64`: one past the largest `uintptr_t` / `size_t` value. -/
def wordSize : Nat := 2 ^ 64

/-- State of one `TkoTracker` together with the global `TkoCounters` of its
owning `TkoTrackerMap`. -/
structure TkoState where
  /-- `tkoThreshold_`, set at construction. -/
  tkoThreshold : Nat
  /-- `sumFailures_`, the atomic tagged word. -/
  sumFailures : Nat
  /-- `consecutiveFailureCount_`. -/
  consecutiveFailureCount : Nat
  /-- `trackerMap_.globalTkos_.softTkos`. -/
  softTkos : Nat
  /-- `trackerMap_.globalTkos_.hardTkos`. -/
  hardTkos : Nat
  /-- Ghost flag: true iff `assert(oldSoftTkos != 0)` in
  `decrementSoftTkoCount` has fired on some call. -/
  softDecAssertFailed : Bool
deriving DecidableEq, Repr

/-- Modelled from the spec: the constructor `TkoTracker(tkoThreshold, trackerMap)`
stores the threshold; the header (not under `src/`) zero-initialises
`sumFailures_` and `consecutiveFailureCount_`, matching the spec's fresh
tracker with failure count 0; a fresh map has both global counters at 0. -/
def mkTkoTracker (tkoThreshold : Nat) : TkoState :=
  ⟨tkoThreshold, 0, 0, 0, 0, false⟩

/-- `TkoTracker::isHardTko`: `sumFailures_ > tkoThreshold_ && sumFailures_ % 2 == 1`. -/
def isHardTko (s : TkoState) : Bool :=
  decide (s.tkoThreshold < s.sumFailures) && s.sumFailures % 2 == 1

/-- `TkoTracker::isSoftTko`: `sumFailures_ > tkoThreshold_ && sumFailures_ % 2 == 0`. -/
def isSoftTko (s : TkoState) : Bool :=
  decide (s.tkoThreshold < s.sumFailures) && s.sumFailures % 2 == 0

/-- Modelled from the spec: `TkoTracker::isTko` lives in the header (not under
`src/`); per spec section 4.2, `is_tko() ≡ W > threshold`, which is exactly
`isSoftTko || isHardTko` as computed by the two functions in the source. -/
def isTko (s : TkoState) : Bool :=
  decide (s.tkoThreshold < s.sumFailures)

/-- `TkoTracker::incrementSoftTkoCount`: `trackerMap_.globalTkos_.softTkos++`. -/
def incrementSoftTkoCount (s : TkoState) : TkoState :=
  { s with softTkos := (s.softTkos + 1) % wordSize }

/-- `TkoTracker::decrementSoftTkoCount`: `fetch_sub(1)` (wraps at zero) and
`assert(oldSoftTkos != 0)`, recorded in the ghost flag. -/
def decrementSoftTkoCount (s : TkoState) : TkoState :=
  { s with
    softTkos := (s.softTkos + (wordSize - 1)) % wordSize,
    softDecAssertFailed := s.softDecAssertFailed || (s.softTkos == 0) }

/-- `TkoTracker::setSumFailures`: CAS-install `value` unless the observed
`sumFailures_ > tkoThreshold_` (some destination is TKO-responsible). -/
def setSumFailures (s : TkoState) (value : Nat) : Bool × TkoState :=
  if s.tkoThreshold < s.sumFailures then (false, s)
  else (true, { s with sumFailures := value })

/-- `x | 1` on a machine word: set the low bit. -/
def lowBitSet (x : Nat) : Nat := x - x % 2 + 1

/-- `TkoTracker::isResponsible`: `(sumFailures_ & ~1) == (uintptr_t)pdstn`;
clearing the low bit of `x` is `x - x % 2`. -/
def isResponsible (s : TkoState) (d : Nat) : Bool :=
  (s.sumFailures - s.sumFailures % 2) == d

/-- `TkoTracker::recordSoftFailure`, sequential semantics.  The local `value`
starts at 0, so on the single loop iteration the test `value != pdstnAddr`
of the threshold branch is `0 != d`, and the test `value == pdstnAddr` of the
other branch is `0 == d`.  `tkoThreshold_ - 1` is `size_t` subtraction and
underflows for threshold 0, hence the `+ (wordSize - 1) % wordSize` form. -/
def recordSoftFailure (s : TkoState) (d : Nat) : Bool × TkoState :=
  let s1 := { s with
    consecutiveFailureCount := (s.consecutiveFailureCount + 1) % wordSize }
  if isTko s1 then (false, s1)
  else
    let cur := s1.sumFailures
    if cur == (s1.tkoThreshold + (wordSize - 1)) % wordSize then
      -- about to enter soft TKO: increment the counter (unless d is the
      -- initial value 0 of `value`), install the destination token
      let s2 := if (0 : Nat) == d then s1 else incrementSoftTkoCount s1
      (true, { s2 with sumFailures := d })
    else
      -- `value == pdstnAddr` on the first iteration only when d = 0
      let s2 := if (0 : Nat) == d then decrementSoftTkoCount s1 else s1
      if s2.tkoThreshold < cur then (false, s2)
      else
        let v := (cur + 1) % wordSize
        (v == d, { s2 with sumFailures := v })

/-- `TkoTracker::recordHardFailure`, sequential semantics. -/
def recordHardFailure (s : TkoState) (d : Nat) : Bool × TkoState :=
  let s1 := { s with
    consecutiveFailureCount := (s.consecutiveFailureCount + 1) % wordSize }
  if isHardTko s1 then (false, s1)
  else if isResponsible s1 d then
    -- soft-to-hard upgrade in place: `sumFailures_ |= 1`
    let s2 := { s1 with sumFailures := lowBitSet s1.sumFailures }
    let s3 := decrementSoftTkoCount s2
    (false, { s3 with hardTkos := (s3.hardTkos + 1) % wordSize })
  else
    match setSumFailures s1 (lowBitSet d) with
    | (true, s2) => (true, { s2 with hardTkos := (s2.hardTkos + 1) % wordSize })
    | (false, s2) => (false, s2)

/-- `TkoTracker::recordSuccess`, sequential semantics.  The bare
`--trackerMap_.globalTkos_.hardTkos` has no assertion and wraps at zero. -/
def recordSuccess (s : TkoState) (d : Nat) : Bool × TkoState :=
  if isResponsible s d then
    let s1 := if isSoftTko s then decrementSoftTkoCount s else s
    let s2 :=
      if isHardTko s1 then
        { s1 with hardTkos := (s1.hardTkos + (wordSize - 1)) % wordSize }
      else s1
    (true, { s2 with sumFailures := 0, consecutiveFailureCount := 0 })
  else if s.sumFailures != 0 then
    match setSumFailures s 0 with
    | (true, s1) => (false, { s1 with consecutiveFailureCount := 0 })
    | (false, s1) => (false, s1)
  else (false, s)

/-- `TkoTracker::removeDestination`. -/
def removeDestination (s : TkoState) (d : Nat) : Bool × TkoState :=
  if isResponsible s d then recordSuccess s d else (false, s)

/-- One sequential call to a public mutating operation of the tracker, tagged
with the destination token making the call. -/
inductive TkoOp where
  | softFailure (d : Nat)
  | hardFailure (d : Nat)
  | success (d : Nat)
  | remove (d : Nat)
deriving DecidableEq, Repr

/-- Dispatch one operation. -/
def applyOp (s : TkoState) (op : TkoOp) : Bool × TkoState :=
  match op with
  | .softFailure d => recordSoftFailure s d
  | .hardFailure d => recordHardFailure s d
  | .success d => recordSuccess s d
  | .remove d => removeDestination s d

/-- Run a sequence of operations, keeping the final state. -/
def runOps (s : TkoState) (ops : List TkoOp) : TkoState :=
  ops.foldl (fun s op => (applyOp s op).2) s

/-- Run a sequence of operations, keeping the list of returned booleans. -/
def runReturns : TkoState → List TkoOp → List Bool
  | _, [] => []
  | s, op :: ops => (applyOp s op).1 :: runReturns (applyOp s op).2 ops

/-- The state after `k` consecutive `recordSoftFailure d` calls on a fresh
tracker with threshold `t`. -/
def softRun (t d k : Nat) : TkoState :=
  runOps (mkTkoTracker t) (List.replicate k (.softFailure d))

example : (recordSoftFailure (mkTkoTracker 4) 4096).1 = false := by decide
example : softRun 4 4096 3 = ⟨4, 3, 3, 0, 0, false⟩ := by decide
example : softRun 4 4096 4 = ⟨4, 4096, 4, 1, 0, false⟩ := by decide
example : isSoftTko (softRun 4 4096 4) = true := by decide

/-! ### Arithmetic helpers about the word-size modulus -/

theorem wordSize_pos : 0 < wordSize := by decide

theorem threshold_pred_mod (t : Nat) (h1 : 1 ≤ t) (h2 : t < wordSize) :
    (t + (wordSize - 1)) % wordSize = t - 1 := by
  have h0 : 0 < wordSize := wordSize_pos
  have h3 : t + (wordSize - 1) = (t - 1) + 1 * wordSize := by omega
  rw [h3, Nat.add_mul_mod_self_right]
  exact Nat.mod_eq_of_lt (by omega)

/-! ### Step lemmas: how each operation acts on the states we meet -/

/-- A soft failure strictly below the threshold-entry point increments both
counters of a clean tracker state and returns `false`. -/
theorem recordSoftFailure_below (t k d : Nat) (htW : t < wordSize)
    (hk : k + 1 < t) (hd : t < d) :
    recordSoftFailure ⟨t, k, k, 0, 0, false⟩ d
      = (false, ⟨t, k + 1, k + 1, 0, 0, false⟩) := by
  have hW : 0 < wordSize := wordSize_pos
  have hk1 : (k + 1) % wordSize = k + 1 := Nat.mod_eq_of_lt (by omega)
  have hguard : (t + (wordSize - 1)) % wordSize = t - 1 :=
    threshold_pred_mod t (by omega) htW
  simp [recordSoftFailure, isTko, incrementSoftTkoCount, decrementSoftTkoCount,
    hk1, hguard, show ¬ t < k by omega, show ¬ k = t - 1 by omega,
    show ¬ (0 : Nat) = d by omega, show ¬ t < k by omega,
    show ¬ k + 1 = d by omega]

/-- The soft failure that observes `threshold - 1` installs the token,
increments the soft-TKO count and returns `true`. -/
theorem recordSoftFailure_enter (t d : Nat) (ht : 1 ≤ t) (htW : t < wordSize)
    (hd : t < d) :
    recordSoftFailure ⟨t, t - 1, t - 1, 0, 0, false⟩ d
      = (true, ⟨t, d, t, 1, 0, false⟩) := by
  have hW : 0 < wordSize := wordSize_pos
  have hk1 : (t - 1 + 1) % wordSize = t := by
    rw [Nat.sub_add_cancel ht]; exact Nat.mod_eq_of_lt htW
  have hguard : (t + (wordSize - 1)) % wordSize = t - 1 :=
    threshold_pred_mod t ht htW
  simp [recordSoftFailure, isTko, incrementSoftTkoCount, decrementSoftTkoCount,
    hk1, hguard, show ¬ t < t - 1 by omega, show ¬ (0 : Nat) = d by omega,
    show (1 : Nat) % wordSize = 1 from Nat.mod_eq_of_lt (by omega)]

theorem runOps_append (s : TkoState) (l1 l2 : List TkoOp) :
    runOps s (l1 ++ l2) = runOps (runOps s l1) l2 := by
  simp [runOps, List.foldl_append]

/-- Below the entry point, `k` soft failures on a fresh tracker leave a plain
failure count of `k`. -/
theorem softRun_lt (t d k : Nat) (htW : t < wordSize) (hd : t < d) (hk : k < t) :
    softRun t d k = ⟨t, k, k, 0, 0, false⟩ := by
  induction k with
  | zero => rfl
  | succ k ih =>
    rw [softRun, List.replicate_succ', runOps_append, ← softRun, ih (by omega)]
    show (recordSoftFailure ⟨t, k, k, 0, 0, false⟩ d).2 = _
    rw [recordSoftFailure_below t k d htW (by omega) hd]

theorem softRun_succ (t d k : Nat) :
    softRun t d (k + 1) = (recordSoftFailure (softRun t d k) d).2 := by
  rw [softRun, List.replicate_succ', runOps_append]
  rfl

/-- The `t`-th soft failure installs the token: `d` responsible, one soft TKO. -/
theorem softRun_enter (t d : Nat) (ht : 1 ≤ t) (htW : t < wordSize)
    (hd : t < d) :
    softRun t d t = ⟨t, d, t, 1, 0, false⟩ := by
  obtain ⟨k, rfl⟩ : ∃ k, t = k + 1 := ⟨t - 1, by omega⟩
  rw [softRun_succ, softRun_lt (k + 1) d k htW hd (by omega)]
  have h2 := recordSoftFailure_enter (k + 1) d ht htW hd
  simp only [Nat.add_sub_cancel] at h2
  rw [h2]

/-- Return values of a block of consecutive soft failures that ends exactly at
the threshold: all `false` but the last, which is `true`. -/
theorem runReturns_soft_block (t d : Nat) (htW : t < wordSize) (hd : t < d) :
    ∀ n k, k + n = t → 1 ≤ n →
      runReturns ⟨t, k, k, 0, 0, false⟩ (List.replicate n (.softFailure d))
        = List.replicate (n - 1) false ++ [true] := by
  intro n
  induction n with
  | zero => intro k _ hn; omega
  | succ n ih =>
    intro k hk _
    rcases Nat.eq_zero_or_pos n with hn0 | hn1
    · subst hn0
      have hkt : k = t - 1 := by omega
      rw [List.replicate_succ, List.replicate_zero]
      show (recordSoftFailure ⟨t, k, k, 0, 0, false⟩ d).1
          :: runReturns _ [] = _
      rw [hkt, recordSoftFailure_enter t d (by omega) htW hd]
      rfl
    · rw [List.replicate_succ]
      show (recordSoftFailure ⟨t, k, k, 0, 0, false⟩ d).1
          :: runReturns (recordSoftFailure ⟨t, k, k, 0, 0, false⟩ d).2
              (List.replicate n (.softFailure d)) = _
      rw [recordSoftFailure_below t k d htW (by omega) hd]
      rw [ih (k + 1) (by omega) (by omega)]
      have hn' : n + 1 - 1 = (n - 1) + 1 := by omega
      rw [hn', List.replicate_succ]
      rfl

/-- C1: on a fresh tracker with threshold `t ≥ 1` and an even destination
token `d > t`, the `t` consecutive `recordSoftFailure(d)` calls return
`false` for the first `t - 1` of them and `true` for the `t`-th; afterwards
the tracker is in soft TKO with `d` responsible, `softTkos = 1`,
`hardTkos = 0`, and `consecutiveFailureCount = t`.  At `t = 4` this is the
spec's `false,false,false,true` scenario. -/
theorem c1_linear_soft_tko_entry (t d : Nat) (ht : 1 ≤ t) (htW : t < wordSize)
    (hd2 : d % 2 = 0) (hdt : t < d) :
    runReturns (mkTkoTracker t) (List.replicate t (.softFailure d))
        = List.replicate (t - 1) false ++ [true] ∧
      isSoftTko (softRun t d t) = true ∧
      isResponsible (softRun t d t) d = true ∧
      (softRun t d t).softTkos = 1 ∧
      (softRun t d t).hardTkos = 0 ∧
      (softRun t d t).consecutiveFailureCount = t := by
  have hfinal : softRun t d t = ⟨t, d, t, 1, 0, false⟩ :=
    softRun_enter t d ht htW hdt
  refine ⟨?_, ?_, ?_, ?_, ?_, ?_⟩
  · exact runReturns_soft_block t d htW hdt t 0 (by omega) ht
  · rw [hfinal]; simp [isSoftTko, hdt, hd2]
  · rw [hfinal]; simp [isResponsible, hd2]
  · rw [hfinal]
  · rw [hfinal]
  · rw [hfinal]

/-- Witness for C1 at the spec's scenario: threshold 4, token `0x1000`. -/
theorem c1_witness :
    (1 ≤ 4 ∧ 4 < wordSize ∧ 4096 % 2 = 0 ∧ 4 < 4096) ∧
      (runReturns (mkTkoTracker 4) (List.replicate 4 (.softFailure 4096))
          = List.replicate (4 - 1) false ++ [true] ∧
        isSoftTko (softRun 4 4096 4) = true ∧
        isResponsible (softRun 4 4096 4) 4096 = true ∧
        (softRun 4 4096 4).softTkos = 1 ∧
        (softRun 4 4096 4).hardTkos = 0 ∧
        (softRun 4 4096 4).consecutiveFailureCount = 4) :=
  ⟨⟨by decide, by decide, by decide, by decide⟩,
    c1_linear_soft_tko_entry 4 4096 (by decide) (by decide) (by decide)
      (by decide)⟩

/-! ### Predicate characterizations -/

theorem isSoftTko_iff (s : TkoState) :
    isSoftTko s = true ↔
      s.tkoThreshold < s.sumFailures ∧ s.sumFailures % 2 = 0 := by
  simp [isSoftTko]

theorem isHardTko_iff (s : TkoState) :
    isHardTko s = true ↔
      s.tkoThreshold < s.sumFailures ∧ s.sumFailures % 2 = 1 := by
  simp [isHardTko]

theorem isTko_iff (s : TkoState) :
    isTko s = true ↔ s.tkoThreshold < s.sumFailures := by
  simp [isTko]

theorem isResponsible_iff (s : TkoState) (d : Nat) :
    isResponsible s d = true ↔ s.sumFailures - s.sumFailures % 2 = d := by
  simp [isResponsible]

theorem soft_imp_not_hard (s : TkoState) (h : isSoftTko s = true) :
    isHardTko s = false := by
  rw [isSoftTko_iff] at h
  simp [isHardTko, h.2]

/-- Shape of the responsible branch of `recordSuccess`: counters decremented
according to the TKO severity, word reset, failure streak reset, `true`. -/
theorem recordSuccess_responsible (s : TkoState) (d : Nat)
    (hresp : isResponsible s d = true)
    (hsW : s.softTkos < wordSize) (hhW : s.hardTkos < wordSize)
    (hs0 : isSoftTko s = true → s.softTkos ≠ 0)
    (hh0 : isHardTko s = true → s.hardTkos ≠ 0) :
    recordSuccess s d =
      (true, { s with
        sumFailures := 0,
        consecutiveFailureCount := 0,
        softTkos := if isSoftTko s then s.softTkos - 1 else s.softTkos,
        hardTkos := if isHardTko s then s.hardTkos - 1 else s.hardTkos }) := by
  obtain ⟨t, sf, c, st, ht, fl⟩ := s
  cases hsoft : isSoftTko ⟨t, sf, c, st, ht, fl⟩ with
  | true =>
    have hhard : isHardTko ⟨t, sf, c, st, ht, fl⟩ = false :=
      soft_imp_not_hard _ hsoft
    have hst0 : st ≠ 0 := hs0 hsoft
    dsimp at hst0 hsW
    have hdec : (st + (wordSize - 1)) % wordSize = st - 1 :=
      threshold_pred_mod st (by omega) hsW
    have hpar : ¬ (t < sf ∧ sf % 2 = 1) := by
      rw [isSoftTko_iff] at hsoft; dsimp at hsoft; omega
    simp [recordSuccess, hresp, hsoft, hhard, decrementSoftTkoCount, hdec,
      hst0, isHardTko, hpar]
  | false =>
    cases hhard : isHardTko ⟨t, sf, c, st, ht, fl⟩ with
    | true =>
      have hht0 : ht ≠ 0 := hh0 hhard
      dsimp at hht0 hhW
      have hdec : (ht + (wordSize - 1)) % wordSize = ht - 1 :=
        threshold_pred_mod ht (by omega) hhW
      simp [recordSuccess, hresp, hsoft, hhard, hdec]
    | false =>
      simp [recordSuccess, hresp, hsoft, hhard]

/-- C2: from any TKO state in which `d` is responsible (and with sane global
counters), `recordSuccess(d)` returns `true`, stores `sumFailures = 0` and
`consecutiveFailureCount = 0`, decrements `softTkos` iff the state was soft
TKO, decrements `hardTkos` iff it was hard TKO, and leaves the tracker not
TKO. -/
theorem c2_success_clears_tko (s : TkoState) (d : Nat)
    (hresp : isResponsible s d = true) (htko : isTko s = true)
    (hsW : s.softTkos < wordSize) (hhW : s.hardTkos < wordSize)
    (hs0 : isSoftTko s = true → s.softTkos ≠ 0)
    (hh0 : isHardTko s = true → s.hardTkos ≠ 0) :
    (recordSuccess s d).1 = true ∧
      (recordSuccess s d).2.sumFailures = 0 ∧
      (recordSuccess s d).2.consecutiveFailureCount = 0 ∧
      (recordSuccess s d).2.softTkos =
        (if isSoftTko s then s.softTkos - 1 else s.softTkos) ∧
      (recordSuccess s d).2.hardTkos =
        (if isHardTko s then s.hardTkos - 1 else s.hardTkos) ∧
      isTko (recordSuccess s d).2 = false := by
  rw [recordSuccess_responsible s d hresp hsW hhW hs0 hh0]
  refine ⟨rfl, rfl, rfl, rfl, rfl, ?_⟩
  simp [isTko]

/-- Witness for C2: clearing the soft TKO entered in the C1 scenario
(threshold 4, token `0x1000` responsible, one global soft TKO). -/
theorem c2_witness :
    (isResponsible ⟨4, 4096, 4, 1, 0, false⟩ 4096 = true ∧
        isTko ⟨4, 4096, 4, 1, 0, false⟩ = true ∧
        (1 : Nat) < wordSize ∧ (0 : Nat) < wordSize) ∧
      ((recordSuccess ⟨4, 4096, 4, 1, 0, false⟩ 4096).1 = true ∧
        (recordSuccess ⟨4, 4096, 4, 1, 0, false⟩ 4096).2.sumFailures = 0 ∧
        (recordSuccess ⟨4, 4096, 4, 1, 0, false⟩ 4096).2.consecutiveFailureCount
          = 0 ∧
        (recordSuccess ⟨4, 4096, 4, 1, 0, false⟩ 4096).2.softTkos =
          (if isSoftTko ⟨4, 4096, 4, 1, 0, false⟩ then 1 - 1 else 1) ∧
        (recordSuccess ⟨4, 4096, 4, 1, 0, false⟩ 4096).2.hardTkos =
          (if isHardTko ⟨4, 4096, 4, 1, 0, false⟩ then 0 - 1 else 0) ∧
        isTko (recordSuccess ⟨4, 4096, 4, 1, 0, false⟩ 4096).2 = false) :=
  ⟨⟨by decide, by decide, by decide, by decide⟩,
    c2_success_clears_tko ⟨4, 4096, 4, 1, 0, false⟩ 4096 (by decide)
      (by decide) (by decide) (by decide) (by decide) (by decide)⟩

/-- Shape of the in-place soft-to-hard upgrade branch of `recordHardFailure`. -/
theorem recordHardFailure_upgrade (s : TkoState) (d : Nat)
    (hsoft : isSoftTko s = true) (hresp : isResponsible s d = true)
    (hs0 : s.softTkos ≠ 0) (hsW : s.softTkos < wordSize)
    (hhW : s.hardTkos + 1 < wordSize) :
    recordHardFailure s d =
      (false, { s with
        sumFailures := lowBitSet s.sumFailures,
        consecutiveFailureCount := (s.consecutiveFailureCount + 1) % wordSize,
        softTkos := s.softTkos - 1,
        hardTkos := s.hardTkos + 1 }) := by
  obtain ⟨t, sf, c, st, ht, fl⟩ := s
  rw [isSoftTko_iff] at hsoft
  rw [isResponsible_iff] at hresp
  dsimp at hsoft hresp hs0 hsW hhW
  have hdec : (st + (wordSize - 1)) % wordSize = st - 1 :=
    threshold_pred_mod st (by omega) hsW
  have hmodh : (ht + 1) % wordSize = ht + 1 := Nat.mod_eq_of_lt (by omega)
  simp [recordHardFailure, isHardTko, isResponsible, lowBitSet,
    decrementSoftTkoCount, hdec, hmodh, hresp, hs0,
    show ¬ (t < sf ∧ sf % 2 = 1) by omega]

/-- C3: from soft TKO with `d` responsible, `recordHardFailure(d)` upgrades in
place — the word becomes `sumFailures | 1`, `softTkos` is decremented,
`hardTkos` is incremented — and it returns `false`; afterwards the tracker is
hard TKO, not soft TKO, and `d` is still responsible. -/
theorem c3_soft_to_hard_upgrade (s : TkoState) (d : Nat)
    (hsoft : isSoftTko s = true) (hresp : isResponsible s d = true)
    (hs0 : s.softTkos ≠ 0) (hsW : s.softTkos < wordSize)
    (hhW : s.hardTkos + 1 < wordSize) :
    (recordHardFailure s d).1 = false ∧
      (recordHardFailure s d).2.sumFailures = lowBitSet s.sumFailures ∧
      (recordHardFailure s d).2.softTkos = s.softTkos - 1 ∧
      (recordHardFailure s d).2.hardTkos = s.hardTkos + 1 ∧
      isHardTko (recordHardFailure s d).2 = true ∧
      isSoftTko (recordHardFailure s d).2 = false ∧
      isResponsible (recordHardFailure s d).2 d = true := by
  rw [recordHardFailure_upgrade s d hsoft hresp hs0 hsW hhW]
  rw [isSoftTko_iff] at hsoft
  rw [isResponsible_iff] at hresp
  refine ⟨rfl, rfl, rfl, rfl, ?_, ?_, ?_⟩
  · rw [isHardTko_iff]; dsimp; unfold lowBitSet; omega
  · rw [Bool.eq_false_iff]
    intro hcon
    rw [isSoftTko_iff] at hcon
    dsimp at hcon
    unfold lowBitSet at hcon
    omega
  · rw [isResponsible_iff]; dsimp; unfold lowBitSet; omega

/-- Witness for C3: upgrading the soft TKO entered in the C1 scenario. -/
theorem c3_witness :
    (isSoftTko ⟨4, 4096, 4, 1, 0, false⟩ = true ∧
        isResponsible ⟨4, 4096, 4, 1, 0, false⟩ 4096 = true ∧
        (1 : Nat) ≠ 0 ∧ (1 : Nat) < wordSize ∧ (0 : Nat) + 1 < wordSize) ∧
      ((recordHardFailure ⟨4, 4096, 4, 1, 0, false⟩ 4096).1 = false ∧
        (recordHardFailure ⟨4, 4096, 4, 1, 0, false⟩ 4096).2.sumFailures
          = lowBitSet 4096 ∧
        (recordHardFailure ⟨4, 4096, 4, 1, 0, false⟩ 4096).2.softTkos = 1 - 1 ∧
        (recordHardFailure ⟨4, 4096, 4, 1, 0, false⟩ 4096).2.hardTkos = 0 + 1 ∧
        isHardTko (recordHardFailure ⟨4, 4096, 4, 1, 0, false⟩ 4096).2 = true ∧
        isSoftTko (recordHardFailure ⟨4, 4096, 4, 1, 0, false⟩ 4096).2 = false ∧
        isResponsible (recordHardFailure ⟨4, 4096, 4, 1, 0, false⟩ 4096).2 4096
          = true) :=
  ⟨⟨by decide, by decide, by decide, by decide, by decide⟩,
    c3_soft_to_hard_upgrade ⟨4, 4096, 4, 1, 0, false⟩ 4096 (by decide)
      (by decide) (by decide) (by decide) (by decide)⟩

theorem hard_imp_not_soft (s : TkoState) (h : isHardTko s = true) :
    isSoftTko s = false := by
  rw [isHardTko_iff] at h
  simp [isSoftTko, h.2]

/-- C5: on a fresh tracker with any threshold and an even token `d > t`, a
single `recordHardFailure(d)` returns `true`; afterwards the tracker is hard
TKO with `d` responsible, `hardTkos = 1` and `softTkos = 0`. -/
theorem c5_hard_bypasses_threshold (t d : Nat) (hd2 : d % 2 = 0)
    (hdt : t < d) :
    (recordHardFailure (mkTkoTracker t) d).1 = true ∧
      isHardTko (recordHardFailure (mkTkoTracker t) d).2 = true ∧
      isResponsible (recordHardFailure (mkTkoTracker t) d).2 d = true ∧
      (recordHardFailure (mkTkoTracker t) d).2.hardTkos = 1 ∧
      (recordHardFailure (mkTkoTracker t) d).2.softTkos = 0 := by
  have hlb : lowBitSet d = d + 1 := by unfold lowBitSet; omega
  have h1 : (1 : Nat) % wordSize = 1 := Nat.mod_eq_of_lt (by decide)
  have hstep : recordHardFailure (mkTkoTracker t) d
      = (true, ⟨t, d + 1, 1, 0, 1, false⟩) := by
    simp [recordHardFailure, mkTkoTracker, isHardTko, isResponsible,
      setSumFailures, hlb, h1, show ¬ (0 : Nat) = d by omega]
  rw [hstep]
  refine ⟨rfl, ?_, ?_, rfl, rfl⟩
  · rw [isHardTko_iff]; dsimp; omega
  · rw [isResponsible_iff]; dsimp; omega

/-- Witness for C5 at threshold 4, token `0x1000`. -/
theorem c5_witness :
    (4096 % 2 = 0 ∧ 4 < 4096) ∧
      ((recordHardFailure (mkTkoTracker 4) 4096).1 = true ∧
        isHardTko (recordHardFailure (mkTkoTracker 4) 4096).2 = true ∧
        isResponsible (recordHardFailure (mkTkoTracker 4) 4096).2 4096
          = true ∧
        (recordHardFailure (mkTkoTracker 4) 4096).2.hardTkos = 1 ∧
        (recordHardFailure (mkTkoTracker 4) 4096).2.softTkos = 0) :=
  ⟨⟨by decide, by decide⟩,
    c5_hard_bypasses_threshold 4 4096 (by decide) (by decide)⟩

/-- C4 counterexample: the claim says a call by a second destination leaves
the tracker's state unchanged, but from the soft-TKO state of the C1
scenario, `recordSoftFailure(B)` increments `consecutiveFailureCount`
(4 becomes 5), so the state differs. -/
theorem c4_counterexample :
    (recordSoftFailure
        (runOps (mkTkoTracker 4) (List.replicate 4 (.softFailure 4096)))
        8192).2
      ≠ runOps (mkTkoTracker 4) (List.replicate 4 (.softFailure 4096)) := by
  decide

/-- C4 amended: while the tracker is in soft TKO with `a` responsible, calls
by any other destination `b` all return `false`, `a` stays responsible, and
`sumFailures` and both global counters are untouched; however each *failure*
call by `b` still increments `consecutiveFailureCount` (the success call
changes nothing at all). -/
theorem c4_second_writer_cannot_steal (s : TkoState) (a b : Nat)
    (hsoft : isSoftTko s = true) (hresp : isResponsible s a = true)
    (hne : b ≠ a) :
    (recordSoftFailure s b).1 = false ∧
      (recordSoftFailure s b).2 = { s with
        consecutiveFailureCount := (s.consecutiveFailureCount + 1) % wordSize } ∧
      (recordHardFailure s b).1 = false ∧
      (recordHardFailure s b).2 = { s with
        consecutiveFailureCount := (s.consecutiveFailureCount + 1) % wordSize } ∧
      (recordSuccess s b).1 = false ∧
      (recordSuccess s b).2 = s ∧
      isResponsible (recordSoftFailure s b).2 a = true ∧
      isResponsible (recordHardFailure s b).2 a = true ∧
      isResponsible (recordSuccess s b).2 a = true := by
  obtain ⟨t, sf, c, st, ht, fl⟩ := s
  rw [isSoftTko_iff] at hsoft
  rw [isResponsible_iff] at hresp
  dsimp at hsoft hresp
  have hrespb : ¬ sf - sf % 2 = b := by omega
  have hsoftr : recordSoftFailure ⟨t, sf, c, st, ht, fl⟩ b
      = (false, ⟨t, sf, (c + 1) % wordSize, st, ht, fl⟩) := by
    simp [recordSoftFailure, isTko, hsoft.1]
  have hhardr : recordHardFailure ⟨t, sf, c, st, ht, fl⟩ b
      = (false, ⟨t, sf, (c + 1) % wordSize, st, ht, fl⟩) := by
    simp [recordHardFailure, isHardTko, isResponsible, setSumFailures,
      hsoft.1, hsoft.2, hrespb, show ¬ sf = b by omega]
  have hsucc : recordSuccess ⟨t, sf, c, st, ht, fl⟩ b
      = (false, ⟨t, sf, c, st, ht, fl⟩) := by
    simp [recordSuccess, isResponsible, setSumFailures, hrespb, hsoft.1,
      hsoft.2, show ¬ sf = b by omega, show ¬ sf = 0 by omega]
  rw [hsoftr, hhardr, hsucc]
  refine ⟨rfl, rfl, rfl, rfl, rfl, rfl, ?_, ?_, ?_⟩ <;>
    (rw [isResponsible_iff]; dsimp; omega)

/-- Witness for C4's amended theorem at the C1 scenario state. -/
theorem c4_witness :
    (isSoftTko ⟨4, 4096, 4, 1, 0, false⟩ = true ∧
        isResponsible ⟨4, 4096, 4, 1, 0, false⟩ 4096 = true ∧
        (8192 : Nat) ≠ 4096) ∧
      ((recordSoftFailure ⟨4, 4096, 4, 1, 0, false⟩ 8192).1 = false ∧
        (recordSoftFailure ⟨4, 4096, 4, 1, 0, false⟩ 8192).2
          = ⟨4, 4096, (4 + 1) % wordSize, 1, 0, false⟩ ∧
        (recordHardFailure ⟨4, 4096, 4, 1, 0, false⟩ 8192).1 = false ∧
        (recordHardFailure ⟨4, 4096, 4, 1, 0, false⟩ 8192).2
          = ⟨4, 4096, (4 + 1) % wordSize, 1, 0, false⟩ ∧
        (recordSuccess ⟨4, 4096, 4, 1, 0, false⟩ 8192).1 = false ∧
        (recordSuccess ⟨4, 4096, 4, 1, 0, false⟩ 8192).2
          = ⟨4, 4096, 4, 1, 0, false⟩ ∧
        isResponsible (recordSoftFailure ⟨4, 4096, 4, 1, 0, false⟩ 8192).2 4096
          = true ∧
        isResponsible (recordHardFailure ⟨4, 4096, 4, 1, 0, false⟩ 8192).2 4096
          = true ∧
        isResponsible (recordSuccess ⟨4, 4096, 4, 1, 0, false⟩ 8192).2 4096
          = true) :=
  ⟨⟨by decide, by decide, by decide⟩,
    c4_second_writer_cannot_steal ⟨4, 4096, 4, 1, 0, false⟩ 4096 8192
      (by decide) (by decide) (by decide)⟩

/-- C6 counterexample: the claim (following the spec glossary) says a fresh
tracker enters soft TKO only on the `threshold + 1`-th consecutive soft
failure; but with threshold 4 the tracker is already in soft TKO after the
4th `recordSoftFailure` call. -/
theorem c6_counterexample :
    isSoftTko (runOps (mkTkoTracker 4)
      (List.replicate 4 (TkoOp.softFailure 4096))) = true := by
  decide

/-- C6 amended: with threshold `t ≥ 1` and an even token `d > t`, a fresh
tracker is not in soft TKO after any `k < t` consecutive soft failures, and
the `t`-th consecutive `recordSoftFailure(d)` is the call that enters soft
TKO (it returns `true` and leaves the tracker in soft TKO). -/
theorem c6_soft_entry_at_threshold (t d k : Nat) (ht : 1 ≤ t)
    (htW : t < wordSize) (hd2 : d % 2 = 0) (hdt : t < d) (hk : k < t) :
    isSoftTko (softRun t d k) = false ∧
      (recordSoftFailure (softRun t d (t - 1)) d).1 = true ∧
      isSoftTko (softRun t d t) = true := by
  refine ⟨?_, ?_, ?_⟩
  · rw [softRun_lt t d k htW hdt hk, isSoftTko.eq_def]
    dsimp
    simp
    omega
  · rw [softRun_lt t d (t - 1) htW hdt (by omega),
      recordSoftFailure_enter t d ht htW hdt]
  · rw [softRun_enter t d ht htW hdt, isSoftTko_iff]
    dsimp
    omega

/-- Witness for C6's amended theorem at threshold 4, token `0x1000`, `k = 2`. -/
theorem c6_witness :
    (1 ≤ 4 ∧ 4 < wordSize ∧ 4096 % 2 = 0 ∧ 4 < 4096 ∧ 2 < 4) ∧
      (isSoftTko (softRun 4 4096 2) = false ∧
        (recordSoftFailure (softRun 4 4096 (4 - 1)) 4096).1 = true ∧
        isSoftTko (softRun 4 4096 4) = true) :=
  ⟨⟨by decide, by decide, by decide, by decide, by decide⟩,
    c6_soft_entry_at_threshold 4 4096 2 (by decide) (by decide) (by decide)
      (by decide) (by decide)⟩

/-- C8 counterexample: the claim says that with threshold 0 the first
`recordSoftFailure(d)` puts the tracker into soft TKO with `d` responsible
and returns `true`; with `d = 4` it returns `false`, the tracker is not in
soft TKO, and `d` is not responsible. -/
theorem c8_counterexample :
    (recordSoftFailure (mkTkoTracker 0) 4).1 = false ∧
      isSoftTko (recordSoftFailure (mkTkoTracker 0) 4).2 = false ∧
      isResponsible (recordSoftFailure (mkTkoTracker 0) 4).2 4 = false := by
  decide

/-- C8 amended: with threshold 0, `tkoThreshold_ - 1` underflows to
`2^64 - 1` in `size_t` arithmetic, so the first `recordSoftFailure(d)` on a
fresh tracker does not take the entry branch: it returns `false` and stores
`sumFailures = 1`, a value that is above the threshold and odd — the tracker
is TKO, but it reads as *hard* TKO, no even token is responsible, and the
soft-TKO counter is not incremented. -/
theorem c8_threshold_zero (d : Nat) (hd2 : d % 2 = 0) (hd0 : d ≠ 0) :
    (recordSoftFailure (mkTkoTracker 0) d).1 = false ∧
      (recordSoftFailure (mkTkoTracker 0) d).2.sumFailures = 1 ∧
      isTko (recordSoftFailure (mkTkoTracker 0) d).2 = true ∧
      isHardTko (recordSoftFailure (mkTkoTracker 0) d).2 = true ∧
      isSoftTko (recordSoftFailure (mkTkoTracker 0) d).2 = false ∧
      isResponsible (recordSoftFailure (mkTkoTracker 0) d).2 d = false ∧
      (recordSoftFailure (mkTkoTracker 0) d).2.softTkos = 0 := by
  have hW2 : 2 ≤ wordSize := by decide
  have hstep : recordSoftFailure (mkTkoTracker 0) d
      = (false, ⟨0, 1, 1, 0, 0, false⟩) := by
    simp [recordSoftFailure, mkTkoTracker, isTko, decrementSoftTkoCount,
      show (wordSize - 1) % wordSize = wordSize - 1 from
        Nat.mod_eq_of_lt (by omega),
      show ¬ (0 : Nat) = wordSize - 1 by omega,
      show ¬ (0 : Nat) = d by omega,
      show (1 : Nat) % wordSize = 1 from Nat.mod_eq_of_lt (by omega),
      show ¬ (1 : Nat) = d by omega]
  rw [hstep]
  exact ⟨rfl, rfl, by decide, by decide, by decide,
    by simp [isResponsible, show ¬ (0 : Nat) = d by omega], rfl⟩

/-- Witness for C8's amended theorem at token 4. -/
theorem c8_witness :
    (4 % 2 = 0 ∧ (4 : Nat) ≠ 0) ∧
      ((recordSoftFailure (mkTkoTracker 0) 4).1 = false ∧
        (recordSoftFailure (mkTkoTracker 0) 4).2.sumFailures = 1 ∧
        isTko (recordSoftFailure (mkTkoTracker 0) 4).2 = true ∧
        isHardTko (recordSoftFailure (mkTkoTracker 0) 4).2 = true ∧
        isSoftTko (recordSoftFailure (mkTkoTracker 0) 4).2 = false ∧
        isResponsible (recordSoftFailure (mkTkoTracker 0) 4).2 4 = false ∧
        (recordSoftFailure (mkTkoTracker 0) 4).2.softTkos = 0) :=
  ⟨⟨by decide, by decide⟩, c8_threshold_zero 4 (by decide) (by decide)⟩

/-- C9 counterexample: the claim says every code path that decrements a
global TKO counter asserts the pre-decrement value was nonzero; but the bare
`--hardTkos` in `recordSuccess` is unchecked: from a hard-TKO state with
`hardTkos = 0`, the responsible destination's success wraps the counter to
`2^64 - 1` and no assertion fires. -/
theorem c9_counterexample :
    (recordSuccess ⟨4, 4097, 0, 0, 0, false⟩ 4096).2.hardTkos
        = wordSize - 1 ∧
      (recordSuccess ⟨4, 4097, 0, 0, 0, false⟩ 4096).2.softDecAssertFailed
        = false := by
  constructor
  · show (0 + (wordSize - 1)) % wordSize = wordSize - 1
    rw [Nat.zero_add]
    exact Nat.mod_eq_of_lt (by decide)
  · rfl

/-- C9 amended: decrements of `softTkos` all go through
`decrementSoftTkoCount`, whose `assert(oldSoftTkos != 0)` fires whenever the
pre-decrement value is zero; the `hardTkos` decrement in `recordSuccess` is
unchecked — from a hard-TKO state owned by `d` with `hardTkos = 0`,
`recordSuccess(d)` wraps the counter to `2^64 - 1` and leaves the assertion
flag untouched. -/
theorem c9_only_soft_decrement_asserts (s : TkoState) (d : Nat)
    (hresp : isResponsible s d = true) (hhard : isHardTko s = true)
    (hh0 : s.hardTkos = 0) (hs0 : s.softTkos = 0) :
    (decrementSoftTkoCount s).softDecAssertFailed = true ∧
      (recordSuccess s d).2.hardTkos = wordSize - 1 ∧
      (recordSuccess s d).2.softDecAssertFailed = s.softDecAssertFailed := by
  have hsoft : isSoftTko s = false := hard_imp_not_soft s hhard
  obtain ⟨t, sf, c, st, ht, fl⟩ := s
  dsimp at hh0 hs0
  subst hh0; subst hs0
  refine ⟨by simp [decrementSoftTkoCount], ?_, ?_⟩ <;>
    simp [recordSuccess, hresp, hsoft, hhard,
      show (0 + (wordSize - 1)) % wordSize = wordSize - 1 by
        rw [Nat.zero_add]; exact Nat.mod_eq_of_lt (by decide)]

/-- Witness for C9's amended theorem: threshold 4, hard TKO owned by token
`0x1000` (word `0x1001`), both global counters at zero. -/
theorem c9_witness :
    (isResponsible ⟨4, 4097, 0, 0, 0, false⟩ 4096 = true ∧
        isHardTko ⟨4, 4097, 0, 0, 0, false⟩ = true) ∧
      ((decrementSoftTkoCount ⟨4, 4097, 0, 0, 0, false⟩).softDecAssertFailed
          = true ∧
        (recordSuccess ⟨4, 4097, 0, 0, 0, false⟩ 4096).2.hardTkos
          = wordSize - 1 ∧
        (recordSuccess ⟨4, 4097, 0, 0, 0, false⟩ 4096).2.softDecAssertFailed
          = false) :=
  ⟨⟨by decide, by decide⟩,
    c9_only_soft_decrement_asserts ⟨4, 4097, 0, 0, 0, false⟩ 4096 (by decide)
      (by decide) rfl rfl⟩

/-! ### C7: what resets `consecutiveFailureCount` -/

/-- The failure-streak counter as claim C7 reads it: counts failure calls and
is reset exactly by a success-type call that *returns `true`*.  Defined by
replaying the operations; the counter variable `k` never reads the tracker's
own `consecutiveFailureCount` field. -/
def cfcClaim : TkoState → Nat → List TkoOp → Nat
  | _, k, [] => k
  | s, k, op :: ops =>
    let k' := match op with
      | .softFailure _ => k + 1
      | .hardFailure _ => k + 1
      | .success _ => if (applyOp s op).1 then 0 else k
      | .remove _ => if (applyOp s op).1 then 0 else k
    cfcClaim (applyOp s op).2 k' ops

/-- One step of the counter the code actually maintains: failure calls add
one (mod the word size); a `recordSuccess(d)` resets iff `d` is responsible
*or* the word holds a nonzero failure sum not exceeding the threshold (the
CAS-clear path, which returns `false`); `removeDestination(d)` resets iff
`d` is responsible. -/
def cfcStep (s : TkoState) (op : TkoOp) (k : Nat) : Nat :=
  match op with
  | .softFailure _ => (k + 1) % wordSize
  | .hardFailure _ => (k + 1) % wordSize
  | .success d =>
    if isResponsible s d
        || (s.sumFailures != 0 && decide (s.sumFailures ≤ s.tkoThreshold))
    then 0 else k
  | .remove d => if isResponsible s d then 0 else k

/-- The reference failure-streak counter: replay the operations, stepping an
independent counter with `cfcStep`. -/
def cfcRef : TkoState → Nat → List TkoOp → Nat
  | _, k, [] => k
  | s, k, op :: ops => cfcRef (applyOp s op).2 (cfcStep s op k) ops

/-- C7 counterexample: one soft failure, then a success by a *different*
destination (which returns `false` but clears the sub-threshold failure sum
and resets the counter), then another soft failure.  The code's counter is 1;
the claim predicts 2 failure calls since the last `true`-returning success
(there was none). -/
theorem c7_counterexample :
    (runOps (mkTkoTracker 4)
          [.softFailure 4096, .success 8192, .softFailure 4096]
        ).consecutiveFailureCount
      ≠ cfcClaim (mkTkoTracker 4) 0
          [.softFailure 4096, .success 8192, .softFailure 4096] := by
  decide

theorem applyOp_cfc (s : TkoState) (op : TkoOp) :
    (applyOp s op).2.consecutiveFailureCount
      = cfcStep s op s.consecutiveFailureCount := by
  obtain ⟨t, sf, c, st, ht, fl⟩ := s
  cases op with
  | softFailure d =>
    simp only [applyOp, recordSoftFailure, cfcStep, incrementSoftTkoCount,
      decrementSoftTkoCount]
    split_ifs <;> rfl
  | hardFailure d =>
    simp only [applyOp, recordHardFailure, cfcStep, setSumFailures,
      decrementSoftTkoCount]
    split_ifs <;> rfl
  | success d =>
    simp only [applyOp, recordSuccess, cfcStep, setSumFailures,
      decrementSoftTkoCount]
    by_cases h1 : isResponsible ⟨t, sf, c, st, ht, fl⟩ d
    · simp [h1]
    · simp only [h1, if_false, Bool.false_or]
      by_cases h2 : sf = 0
      · simp [h2]
      · by_cases h3 : t < sf
        · simp [h2, h3, show ¬ sf ≤ t by omega]
        · simp [h2, h3, show sf ≤ t by omega]
  | remove d =>
    simp only [applyOp, removeDestination, recordSuccess, cfcStep,
      setSumFailures, decrementSoftTkoCount]
    by_cases h1 : isResponsible ⟨t, sf, c, st, ht, fl⟩ d
    · simp [h1]
    · simp [h1]

/-- C7 amended: after every sequential sequence of operations,
`consecutiveFailureCount` equals the number of failure calls (mod `2^64`)
since the most recent *resetting* call — a `recordSuccess` by the
responsible destination, a `recordSuccess` that observed a nonzero failure
sum not exceeding the threshold (clearing it while returning `false`), or a
`removeDestination` by the responsible destination — or since construction
if no reset occurred; this holds regardless of which destination made each
call. -/
theorem c7_cfc_counts_since_reset (ops : List TkoOp) (s : TkoState) :
    (runOps s ops).consecutiveFailureCount
      = cfcRef s s.consecutiveFailureCount ops := by
  induction ops generalizing s with
  | nil => rfl
  | cons op ops ih =>
    show (runOps (applyOp s op).2 ops).consecutiveFailureCount = _
    rw [ih ((applyOp s op).2), applyOp_cfc]
    rfl

/-! ### C10: validity of the tagged-word encoding -/

/-- The destination token of an operation. -/
def opDest : TkoOp → Nat
  | .softFailure d => d
  | .hardFailure d => d
  | .success d => d
  | .remove d => d

/-- A valid destination identity token for threshold `t`: even (word-aligned
pointer) and greater than `t + 1`, so the token range cannot collide with
failure counts. -/
def validTok (t d : Nat) : Prop := d % 2 = 0 ∧ t + 1 < d ∧ d < wordSize

instance (t d : Nat) : Decidable (validTok t d) := by
  unfold validTok; infer_instance

/-- The encoding invariant: the word is either a failure count strictly below
the threshold, or the token of one of the destinations in `D`, possibly with
the low bit set. -/
def EncInv (D : List Nat) (s : TkoState) : Prop :=
  s.sumFailures < s.tkoThreshold ∨
    ∃ d ∈ D, s.sumFailures = d ∨ s.sumFailures = d + 1

theorem EncInv_mono {D D' : List Nat} (h : ∀ x ∈ D, x ∈ D') (s : TkoState)
    (hinv : EncInv D s) : EncInv D' s := by
  rcases hinv with h1 | ⟨e, he, h2⟩
  · exact Or.inl h1
  · exact Or.inr ⟨e, h e he, h2⟩

theorem EncInv_cons {D : List Nat} (d : Nat) (s : TkoState)
    (hinv : EncInv D s) : EncInv (d :: D) s :=
  EncInv_mono (fun x hx => List.mem_cons_of_mem d hx) s hinv

theorem encInv_step_soft (D : List Nat) (s : TkoState) (d : Nat)
    (ht : 1 ≤ s.tkoThreshold) (htW : s.tkoThreshold < wordSize)
    (hd : validTok s.tkoThreshold d)
    (hD : ∀ e ∈ D, validTok s.tkoThreshold e)
    (hinv : EncInv D s) :
    EncInv (d :: D) (recordSoftFailure s d).2 := by
  obtain ⟨t, sf, c, st, hcnt, fl⟩ := s
  obtain ⟨hd2, hdt, hdW⟩ := hd
  dsimp at ht htW hdt hinv ⊢
  rcases hinv with hlt | ⟨e, heD, hsfe⟩
  · dsimp at hlt
    have h1 : ¬ t < sf := by omega
    by_cases h2 : sf = t - 1
    · have hr : recordSoftFailure ⟨t, sf, c, st, hcnt, fl⟩ d
          = (true, ⟨t, d, (c + 1) % wordSize, (st + 1) % wordSize, hcnt, fl⟩) := by
        simp [recordSoftFailure, isTko, h1, h2, threshold_pred_mod t ht htW,
          incrementSoftTkoCount, show ¬ (0 : Nat) = d by omega]
      rw [hr]
      exact Or.inr ⟨d, List.mem_cons_self d D, Or.inl rfl⟩
    · have hr : recordSoftFailure ⟨t, sf, c, st, hcnt, fl⟩ d
          = ((sf + 1) == d, ⟨t, sf + 1, (c + 1) % wordSize, st, hcnt, fl⟩) := by
        simp [recordSoftFailure, isTko, h1, h2, threshold_pred_mod t ht htW,
          show ¬ (0 : Nat) = d by omega,
          show (sf + 1) % wordSize = sf + 1 from Nat.mod_eq_of_lt (by omega)]
      rw [hr]
      exact Or.inl (by dsimp; omega)
  · obtain ⟨he2, het, heW⟩ := hD e heD
    have het2 : t + 1 < e := het
    dsimp at hsfe
    have h1 : t < sf := by omega
    have hr : recordSoftFailure ⟨t, sf, c, st, hcnt, fl⟩ d
        = (false, ⟨t, sf, (c + 1) % wordSize, st, hcnt, fl⟩) := by
      simp [recordSoftFailure, isTko, h1]
    rw [hr]
    exact Or.inr ⟨e, List.mem_cons_of_mem d heD, hsfe⟩

theorem encInv_step_hard (D : List Nat) (s : TkoState) (d : Nat)
    (ht : 1 ≤ s.tkoThreshold)
    (hd : validTok s.tkoThreshold d)
    (hD : ∀ e ∈ D, validTok s.tkoThreshold e)
    (hinv : EncInv D s) :
    EncInv (d :: D) (recordHardFailure s d).2 := by
  obtain ⟨t, sf, c, st, hcnt, fl⟩ := s
  obtain ⟨hd2, hdt, hdW⟩ := hd
  dsimp at ht hdt hinv ⊢
  by_cases h1 : t < sf ∧ sf % 2 = 1
  · have hr : recordHardFailure ⟨t, sf, c, st, hcnt, fl⟩ d
        = (false, ⟨t, sf, (c + 1) % wordSize, st, hcnt, fl⟩) := by
      simp [recordHardFailure, isHardTko, h1.1, h1.2]
    rw [hr]
    exact EncInv_cons d _ (by
      rcases hinv with h2 | ⟨e, heD, h3⟩
      · exact Or.inl (by dsimp at h2 ⊢; omega)
      · exact Or.inr ⟨e, heD, h3⟩)
  · by_cases h2 : sf - sf % 2 = d
    · -- responsible: in-place upgrade
      have hr : recordHardFailure ⟨t, sf, c, st, hcnt, fl⟩ d
          = (false, ⟨t, lowBitSet sf, (c + 1) % wordSize,
              (st + (wordSize - 1)) % wordSize,
              (hcnt + 1) % wordSize, fl || (st == 0)⟩) := by
        simp [recordHardFailure, isHardTko, isResponsible, h2,
          decrementSoftTkoCount, show ¬ (t < sf ∧ sf % 2 = 1) from h1]
      rw [hr]
      refine Or.inr ⟨d, List.mem_cons_self d D, Or.inr ?_⟩
      dsimp
      unfold lowBitSet
      omega
    · -- not responsible: publish d | 1 if no one is TKO
      by_cases h3 : t < sf
      · have hr : recordHardFailure ⟨t, sf, c, st, hcnt, fl⟩ d
            = (false, ⟨t, sf, (c + 1) % wordSize, st, hcnt, fl⟩) := by
          simp [recordHardFailure, isHardTko, isResponsible, setSumFailures,
            h2, h3, show ¬ (t < sf ∧ sf % 2 = 1) from h1]
        rw [hr]
        exact EncInv_cons d _ (by
          rcases hinv with h4 | ⟨e, heD, h5⟩
          · exact Or.inl (by dsimp at h4 ⊢; omega)
          · exact Or.inr ⟨e, heD, h5⟩)
      · have hr : recordHardFailure ⟨t, sf, c, st, hcnt, fl⟩ d
            = (true, ⟨t, lowBitSet d, (c + 1) % wordSize, st,
                (hcnt + 1) % wordSize, fl⟩) := by
          simp [recordHardFailure, isHardTko, isResponsible, setSumFailures,
            h2, h3, show ¬ (t < sf ∧ sf % 2 = 1) from h1]
        rw [hr]
        refine Or.inr ⟨d, List.mem_cons_self d D, Or.inr ?_⟩
        dsimp
        unfold lowBitSet
        omega

theorem encInv_step_success (D : List Nat) (s : TkoState) (d : Nat)
    (ht : 1 ≤ s.tkoThreshold)
    (hinv : EncInv D s) :
    EncInv (d :: D) (recordSuccess s d).2 := by
  obtain ⟨t, sf, c, st, hcnt, fl⟩ := s
  dsimp at ht hinv ⊢
  by_cases h1 : sf - sf % 2 = d
  · have hr : (recordSuccess ⟨t, sf, c, st, hcnt, fl⟩ d).2.sumFailures = 0 := by
      simp only [recordSuccess, isResponsible, decrementSoftTkoCount]
      split_ifs <;> simp_all
    refine Or.inl ?_
    have h2 : (recordSuccess ⟨t, sf, c, st, hcnt, fl⟩ d).2.tkoThreshold = t := by
      simp only [recordSuccess, isResponsible, decrementSoftTkoCount]
      split_ifs <;> simp_all
    rw [hr, h2]
    omega
  · by_cases h2 : sf = 0
    · have hr : recordSuccess ⟨t, sf, c, st, hcnt, fl⟩ d
          = (false, ⟨t, sf, c, st, hcnt, fl⟩) := by
        simp [recordSuccess, isResponsible, h1, h2,
          show ¬ (0 : Nat) = d by omega]
      rw [hr]
      exact EncInv_cons d _ hinv
    · by_cases h3 : t < sf
      · have hr : recordSuccess ⟨t, sf, c, st, hcnt, fl⟩ d
            = (false, ⟨t, sf, c, st, hcnt, fl⟩) := by
          simp [recordSuccess, isResponsible, setSumFailures, h1, h2, h3]
        rw [hr]
        exact EncInv_cons d _ hinv
      · have hr : recordSuccess ⟨t, sf, c, st, hcnt, fl⟩ d
            = (false, ⟨t, 0, 0, st, hcnt, fl⟩) := by
          simp [recordSuccess, isResponsible, setSumFailures, h1, h2, h3]
        rw [hr]
        exact Or.inl (by dsimp; omega)

theorem encInv_step (D : List Nat) (s : TkoState) (op : TkoOp)
    (ht : 1 ≤ s.tkoThreshold) (htW : s.tkoThreshold < wordSize)
    (hd : validTok s.tkoThreshold (opDest op))
    (hD : ∀ e ∈ D, validTok s.tkoThreshold e)
    (hinv : EncInv D s) :
    EncInv (opDest op :: D) (applyOp s op).2 := by
  cases op with
  | softFailure d => exact encInv_step_soft D s d ht htW hd hD hinv
  | hardFailure d => exact encInv_step_hard D s d ht hd hD hinv
  | success d => exact encInv_step_success D s d ht hinv
  | remove d =>
    show EncInv (d :: D) (removeDestination s d).2
    unfold removeDestination
    by_cases h1 : isResponsible s d
    · simp only [h1, if_true]
      exact encInv_step_success D s d ht hinv
    · simp only [h1, if_false]
      exact EncInv_cons d s hinv

theorem applyOp_tkoThreshold (s : TkoState) (op : TkoOp) :
    (applyOp s op).2.tkoThreshold = s.tkoThreshold := by
  obtain ⟨t, sf, c, st, hcnt, fl⟩ := s
  cases op <;>
    (simp only [applyOp, recordSoftFailure, recordHardFailure, recordSuccess,
      removeDestination, setSumFailures, incrementSoftTkoCount,
      decrementSoftTkoCount]
     split_ifs <;> rfl)

theorem runOps_tkoThreshold (ops : List TkoOp) (s : TkoState) :
    (runOps s ops).tkoThreshold = s.tkoThreshold := by
  induction ops generalizing s with
  | nil => rfl
  | cons op ops ih =>
    show (runOps (applyOp s op).2 ops).tkoThreshold = _
    rw [ih, applyOp_tkoThreshold]

theorem encInv_run (ops : List TkoOp) (D : List Nat) (s : TkoState)
    (ht : 1 ≤ s.tkoThreshold) (htW : s.tkoThreshold < wordSize)
    (hops : ∀ op ∈ ops, validTok s.tkoThreshold (opDest op))
    (hD : ∀ e ∈ D, validTok s.tkoThreshold e)
    (hinv : EncInv D s) :
    EncInv (List.map opDest ops ++ D) (runOps s ops) := by
  induction ops generalizing D s with
  | nil => exact hinv
  | cons op ops ih =>
    show EncInv _ (runOps (applyOp s op).2 ops)
    have hpres := applyOp_tkoThreshold s op
    have hstep := encInv_step D s op ht htW (hops op (List.mem_cons_self op ops))
      hD hinv
    have hmain := ih (opDest op :: D) (applyOp s op).2
      (by rw [hpres]; exact ht) (by rw [hpres]; exact htW)
      (fun o ho => by rw [hpres]; exact hops o (List.mem_cons_of_mem op ho))
      (fun e he => by
        rw [hpres]
        rcases List.mem_cons.mp he with h | h
        · subst h; exact hops op (List.mem_cons_self op ops)
        · exact hD e h)
      hstep
    refine EncInv_mono ?_ _ hmain
    intro x hx
    simp only [List.map_cons, List.cons_append, List.mem_cons,
      List.mem_append] at hx ⊢
    tauto

/-- C10: with threshold `t ≥ 1` and every operation made by a valid token
(even, greater than `t + 1`), after any sequential sequence of operations
the word `sumFailures` is either a failure count strictly below `t` or the
token of one of the calling destinations, possibly with the low bit set; in
particular the value `t` itself is never stored, and whenever the tracker is
TKO the responsible destination's token is recovered exactly by clearing the
low bit of `sumFailures`. -/
theorem c10_encoding_validity (t : Nat) (ops : List TkoOp)
    (ht : 1 ≤ t) (htW : t < wordSize)
    (hops : ∀ op ∈ ops, validTok t (opDest op)) :
    ((runOps (mkTkoTracker t) ops).sumFailures < t ∨
        ∃ d ∈ List.map opDest ops,
          (runOps (mkTkoTracker t) ops).sumFailures = d ∨
            (runOps (mkTkoTracker t) ops).sumFailures = d + 1) ∧
      (runOps (mkTkoTracker t) ops).sumFailures ≠ t ∧
      (isTko (runOps (mkTkoTracker t) ops) = true →
        ∃ d ∈ List.map opDest ops,
          (runOps (mkTkoTracker t) ops).sumFailures
              - (runOps (mkTkoTracker t) ops).sumFailures % 2 = d ∧
            isResponsible (runOps (mkTkoTracker t) ops) d = true) := by
  have hth : (runOps (mkTkoTracker t) ops).tkoThreshold = t :=
    runOps_tkoThreshold ops (mkTkoTracker t)
  have hinv := encInv_run ops [] (mkTkoTracker t) ht htW hops
    (fun e he => absurd he (List.not_mem_nil e))
    (Or.inl (by dsimp [mkTkoTracker]; omega))
  rw [List.append_nil] at hinv
  unfold EncInv at hinv
  rw [hth] at hinv
  refine ⟨hinv, ?_, ?_⟩
  · rcases hinv with h1 | ⟨d, hd, h2⟩
    · omega
    · obtain ⟨op, hop, rfl⟩ := List.mem_map.mp hd
      obtain ⟨hd2, hdt, _⟩ := hops op hop
      omega
  · intro htko
    rw [isTko_iff, hth] at htko
    rcases hinv with h1 | ⟨d, hd, h2⟩
    · omega
    · obtain ⟨op, hop, rfl⟩ := List.mem_map.mp hd
      obtain ⟨hd2, hdt, _⟩ := hops op hop
      refine ⟨opDest op, hd, ?_, ?_⟩
      · rcases h2 with h2 | h2 <;> (rw [h2]; omega)
      · rw [isResponsible_iff]
        rcases h2 with h2 | h2 <;> (rw [h2]; omega)

/-- A mixed scenario sequence in the spirit of the spec's scenarios: soft
failures by token `0x1000`, interference by `0x2000`, a success, a hard
failure and a final success. -/
def mixedOps : List TkoOp :=
  [.softFailure 4096, .softFailure 4096, .softFailure 4096,
    .softFailure 4096, .softFailure 8192, .success 8192,
    .hardFailure 4096, .success 4096]

/-- Witness for C10 at threshold 4 on the mixed scenario sequence. -/
theorem c10_witness :
    (1 ≤ 4 ∧ 4 < wordSize ∧ (∀ op ∈ mixedOps, validTok 4 (opDest op))) ∧
      (((runOps (mkTkoTracker 4) mixedOps).sumFailures < 4 ∨
          ∃ d ∈ List.map opDest mixedOps,
            (runOps (mkTkoTracker 4) mixedOps).sumFailures = d ∨
              (runOps (mkTkoTracker 4) mixedOps).sumFailures = d + 1) ∧
        (runOps (mkTkoTracker 4) mixedOps).sumFailures ≠ 4 ∧
        (isTko (runOps (mkTkoTracker 4) mixedOps) = true →
          ∃ d ∈ List.map opDest mixedOps,
            (runOps (mkTkoTracker 4) mixedOps).sumFailures
                - (runOps (mkTkoTracker 4) mixedOps).sumFailures % 2 = d ∧
              isResponsible (runOps (mkTkoTracker 4) mixedOps) d = true)) :=
  ⟨⟨by decide, by decide, by decide⟩,
    c10_encoding_validity 4 mixedOps (by decide) (by decide) (by decide)⟩

end Mcrouter
